import Mathlib

/-!
# Verification of the system-monitor metrics hub

Shallow embedding of the Go sources of `kennethfeh/system-monitor`:

* `internal/models/metrics.go` — the metric snapshot data model;
* `internal/storage/storage.go` — the bounded history ring (`MetricsStorage`);
* `internal/collector/collector.go` — the snapshot source (`Collect`,
  `collectNetwork`), whose sub-collector outcomes are modelled as an
  explicit environment;
* `main.go` — the broadcast hub (`Server.run`) and the collection loop
  (`startMetricsCollection`), modelled as step functions on explicit state.

Modelling conventions: Go `uint64` counters become `Nat` (the embedded code
never performs arithmetic on them, so wraparound cannot be observed);
Go `float64` fields become `Rat` (the embedded code only stores, copies and
compares these values, never computes with them); `time.Time` becomes an
integer instant.  Go slice values nested inside a struct are slice headers
sharing a backing array; where that aliasing matters (the copy semantics of
`GetHistory`/`GetLatest`) we model backing arrays in an explicit heap and
nested slices as references into it.
-/

namespace SystemMonitor

abbrev Float64 := Rat
abbrev GoTime := Int

/-- Model of `models.CPUMetrics` from internal/models/metrics.go. -/
structure CPUMetrics where
  usagePercent : List Float64
  totalPercent : Float64
  cores : Int
  loadAvg : List Float64
  deriving DecidableEq

/-- Model of `models.MemoryMetrics` from internal/models/metrics.go. -/
structure MemoryMetrics where
  total : Nat
  used : Nat
  free : Nat
  available : Nat
  usedPercent : Float64
  swapTotal : Nat
  swapUsed : Nat
  swapFree : Nat
  swapPercent : Float64
  deriving DecidableEq

/-- Model of `models.DiskMetrics` from internal/models/metrics.go. -/
structure DiskMetrics where
  device : String
  mountpoint : String
  fstype : String
  total : Nat
  used : Nat
  free : Nat
  usedPercent : Float64
  deriving DecidableEq

/-- Model of `models.NetworkMetrics` from internal/models/metrics.go. -/
structure NetworkMetrics where
  name : String
  bytesSent : Nat
  bytesRecv : Nat
  packetsSent : Nat
  packetsRecv : Nat
  errin : Nat
  errout : Nat
  dropin : Nat
  dropout : Nat
  deriving DecidableEq

/-- Model of `models.SystemInfo` from internal/models/metrics.go. -/
structure SystemInfo where
  hostname : String
  os : String
  platform : String
  platformVersion : String
  kernelVersion : String
  uptime : Nat
  bootTime : Nat
  processes : Nat
  deriving DecidableEq

/-- Model of `models.TempMetrics` from internal/models/metrics.go. -/
structure TempMetrics where
  sensorKey : String
  temperature : Float64
  label : String
  deriving DecidableEq

/-- Model of `models.SystemMetrics` from internal/models/metrics.go, with nested Go
slices rendered as Lean lists (value view; the aliasing view used for the
copy-semantics analysis is `SystemMetricsRef` below). -/
structure SystemMetrics where
  timestamp : GoTime
  cpu : CPUMetrics
  memory : MemoryMetrics
  disk : List DiskMetrics
  network : List NetworkMetrics
  system : SystemInfo
  temperature : List TempMetrics
  deriving DecidableEq

/-- Go zero value of `CPUMetrics` (nil slices become `[]`). -/
def CPUMetrics.zero : CPUMetrics := ⟨[], 0, 0, []⟩

/-- Go zero value of `MemoryMetrics`. -/
def MemoryMetrics.zero : MemoryMetrics := ⟨0, 0, 0, 0, 0, 0, 0, 0, 0⟩

/-- Go zero value of `SystemInfo`. -/
def SystemInfo.zero : SystemInfo := ⟨"", "", "", "", "", 0, 0, 0⟩

/-! ## The history ring: internal/storage/storage.go

The stored element type is a parameter: the Go code never inspects the
stored `models.SystemMetrics` values, and the two claims families need the
ring both at the value view and at the aliasing view of a snapshot. -/

/-- Embeds `storage.MetricsStorage`: the slice of stored metrics and the bound
fixed at construction.  (The `sync.RWMutex` serialises access; each
operation below is one critical section.) -/
structure MetricsStorage (α : Type) where
  metrics : List α
  maxSize : Nat
  deriving DecidableEq

/-- Embeds `storage.NewMetricsStorage`: a non-positive requested size falls back
to the default of 60 data points. -/
def newMetricsStorage (α : Type) (maxSize : Int) : MetricsStorage α :=
  if maxSize ≤ 0 then
    { metrics := [], maxSize := 60 }
  else
    { metrics := [], maxSize := maxSize.toNat }

/-- Embeds `(*MetricsStorage).Add`: append, then if the length exceeds `maxSize`
keep only the last `maxSize` entries (`s.metrics[len(s.metrics)-s.maxSize:]`). -/
def MetricsStorage.add {α : Type} (s : MetricsStorage α) (metric : α) : MetricsStorage α :=
  let ms := s.metrics ++ [metric]
  if ms.length > s.maxSize then
    { s with metrics := ms.drop (ms.length - s.maxSize) }
  else
    { s with metrics := ms }

/-- Embeds `(*MetricsStorage).GetHistory`: `make` + `copy` return a fresh slice of
the stored struct values; at the value view that fresh copy is the list
itself. -/
def MetricsStorage.getHistory {α : Type} (s : MetricsStorage α) : List α :=
  s.metrics

/-- Embeds `(*MetricsStorage).GetLatest`: `nil` on an empty ring, otherwise a
pointer to a copy of `s.metrics[len(s.metrics)-1]`. -/
def MetricsStorage.getLatest {α : Type} (s : MetricsStorage α) : Option α :=
  if s.metrics.length = 0 then none else s.metrics.getLast?

/-- Embeds `(*MetricsStorage).Clear`: `s.metrics = s.metrics[:0]` empties the
slice; `maxSize` is untouched. -/
def MetricsStorage.clear {α : Type} (s : MetricsStorage α) : MetricsStorage α :=
  { s with metrics := [] }

/-- Embeds `(*MetricsStorage).Size`. -/
def MetricsStorage.size {α : Type} (s : MetricsStorage α) : Nat :=
  s.metrics.length

/-- One step of `Add` rewrites the buffer to the last `maxSize` elements of
the extended buffer (with truncated subtraction, a no-op below capacity). -/
lemma MetricsStorage.add_metrics {α : Type} (s : MetricsStorage α) (m : α) :
    (s.add m).metrics = (s.metrics ++ [m]).drop (s.metrics.length + 1 - s.maxSize) := by
  unfold MetricsStorage.add
  by_cases h : (s.metrics ++ [m]).length > s.maxSize
  · simp only [h, if_pos]
    simp [List.length_append]
  · simp only [h, if_neg, not_false_iff]
    have hlen : s.metrics.length + 1 ≤ s.maxSize := by
      simpa [List.length_append] using Nat.le_of_not_lt h
    simp [Nat.sub_eq_zero_of_le hlen]

/-- The `Add` operation never changes the capacity. -/
lemma MetricsStorage.add_maxSize {α : Type} (s : MetricsStorage α) (m : α) :
    (s.add m).maxSize = s.maxSize := by
  unfold MetricsStorage.add
  simp only []
  split <;> rfl

/-- The `Add` operation keeps the buffer length within the capacity. -/
lemma MetricsStorage.add_length_le {α : Type} (s : MetricsStorage α) (m : α)
    (h : s.metrics.length ≤ s.maxSize) :
    (s.add m).metrics.length ≤ (s.add m).maxSize := by
  rw [MetricsStorage.add_metrics, MetricsStorage.add_maxSize]
  simp only [List.length_drop, List.length_append, List.length_singleton]
  omega

/-- Folding a sequence of `Add` calls over a ring within capacity leaves
exactly the last `maxSize` entries of the concatenated stream. -/
lemma MetricsStorage.foldl_add_metrics {α : Type} (L : List α) (s : MetricsStorage α)
    (h : s.metrics.length ≤ s.maxSize) :
    (L.foldl MetricsStorage.add s).metrics
      = (s.metrics ++ L).drop (s.metrics.length + L.length - s.maxSize) := by
  induction L generalizing s with
  | nil => simp [Nat.sub_eq_zero_of_le h]
  | cons m L ih =>
      rw [List.foldl_cons]
      have hlen : (s.add m).metrics.length ≤ (s.add m).maxSize :=
        MetricsStorage.add_length_le s m h
      rw [ih (s.add m) hlen]
      rw [MetricsStorage.add_metrics, MetricsStorage.add_maxSize]
      have hdroplen : ((s.metrics ++ [m]).drop (s.metrics.length + 1 - s.maxSize)).length
          = s.metrics.length + 1 - (s.metrics.length + 1 - s.maxSize) := by
        simp [List.length_drop]
      set k := s.metrics.length + 1 - s.maxSize with hk
      have hkle : k ≤ (s.metrics ++ [m]).length := by
        simp only [List.length_append, List.length_singleton]
        omega
      rw [← List.drop_append_of_le_length hkle, List.drop_drop, hdroplen]
      have hassoc : s.metrics ++ [m] ++ L = s.metrics ++ m :: L := by simp
      rw [hassoc]
      congr 1
      simp only [List.length_cons]
      omega

/-- Capacity is preserved by any fold of `Add`. -/
lemma MetricsStorage.foldl_add_maxSize {α : Type} (L : List α) (s : MetricsStorage α) :
    (L.foldl MetricsStorage.add s).maxSize = s.maxSize := by
  induction L generalizing s with
  | nil => rfl
  | cons m L ih => rw [List.foldl_cons, ih, MetricsStorage.add_maxSize]

/-- The five operations of the public interface of the ring; the three reads
leave the state untouched and are recorded so that claims quantifying over
"every Ring operation" range over all of them. -/
inductive RingOp (α : Type) where
  | addOp : α → RingOp α
  | clearOp : RingOp α
  | getHistoryOp : RingOp α
  | getLatestOp : RingOp α
  | sizeOp : RingOp α

/-- State effect of one ring operation (reads return values computed from
the state and do not change it). -/
def RingOp.apply {α : Type} (s : MetricsStorage α) : RingOp α → MetricsStorage α
  | .addOp m => s.add m
  | .clearOp => s.clear
  | .getHistoryOp => s
  | .getLatestOp => s
  | .sizeOp => s

/-- Run a sequence of ring operations from a given state. -/
def execOps {α : Type} (ops : List (RingOp α)) (s : MetricsStorage α) : MetricsStorage α :=
  ops.foldl RingOp.apply s

/-- Every single operation preserves `length ≤ maxSize` and the capacity. -/
lemma RingOp.apply_inv {α : Type} (s : MetricsStorage α) (op : RingOp α)
    (h : s.metrics.length ≤ s.maxSize) :
    (RingOp.apply s op).metrics.length ≤ (RingOp.apply s op).maxSize
      ∧ (RingOp.apply s op).maxSize = s.maxSize := by
  cases op with
  | addOp m =>
      exact ⟨MetricsStorage.add_length_le s m h, MetricsStorage.add_maxSize s m⟩
  | clearOp => exact ⟨Nat.zero_le _, rfl⟩
  | getHistoryOp => exact ⟨h, rfl⟩
  | getLatestOp => exact ⟨h, rfl⟩
  | sizeOp => exact ⟨h, rfl⟩

/-- The invariant propagates through any operation sequence. -/
lemma execOps_inv {α : Type} (ops : List (RingOp α)) (s : MetricsStorage α)
    (h : s.metrics.length ≤ s.maxSize) :
    (execOps ops s).metrics.length ≤ (execOps ops s).maxSize
      ∧ (execOps ops s).maxSize = s.maxSize := by
  induction ops generalizing s with
  | nil => exact ⟨h, rfl⟩
  | cons op ops ih =>
      have h1 := RingOp.apply_inv s op h
      have h2 := ih (RingOp.apply s op) h1.1
      exact ⟨h2.1, h2.2.trans h1.2⟩

/-- C3: Starting from a fresh ring of capacity `C ≥ 1`, after adding the
snapshots of `L` in order, `Size` equals `min |L| C` and `GetHistory` is
exactly the last `min |L| C` entries of `L`, oldest first, in insertion
order. -/
theorem add_size_getHistory_spec (α : Type) (C : Int) (hC : 1 ≤ C) (L : List α) :
    (L.foldl MetricsStorage.add (newMetricsStorage α C)).size = min L.length C.toNat
      ∧ (L.foldl MetricsStorage.add (newMetricsStorage α C)).getHistory
        = L.drop (L.length - C.toNat) := by
  have hC0 : ¬ C ≤ 0 := by omega
  have hnew : newMetricsStorage α C = { metrics := [], maxSize := C.toNat } := by
    unfold newMetricsStorage
    simp [hC0]
  have hmet := MetricsStorage.foldl_add_metrics L (newMetricsStorage α C)
    (by rw [hnew]; exact Nat.zero_le _)
  rw [hnew] at hmet
  simp only [List.nil_append, List.length_nil, Nat.zero_add] at hmet
  rw [hnew]
  constructor
  · unfold MetricsStorage.size
    rw [hmet]
    simp only [List.length_drop]
    omega
  · unfold MetricsStorage.getHistory
    rw [hmet]

/-- Witness for C3: end-to-end scenario A — capacity 3, four additions,
history is the last three entries in order. -/
theorem add_size_getHistory_spec_witness :
    (([1, 2, 3, 4] : List Nat).foldl MetricsStorage.add (newMetricsStorage Nat 3)).size = 3
      ∧ (([1, 2, 3, 4] : List Nat).foldl MetricsStorage.add
          (newMetricsStorage Nat 3)).getHistory = [2, 3, 4] := by
  have h := add_size_getHistory_spec Nat 3 (by decide) [1, 2, 3, 4]
  exact ⟨by simpa using h.1, by simpa using h.2⟩

/-- C6: Invariant preserved by every operation sequence on a ring built
by the constructor: the stored count never exceeds the fixed capacity, the
capacity never changes, and `len(GetHistory())` always equals `Size()`. -/
theorem ring_invariant_ops (α : Type) (C : Int) (ops : List (RingOp α)) :
    (execOps ops (newMetricsStorage α C)).size ≤ (execOps ops (newMetricsStorage α C)).maxSize
      ∧ (execOps ops (newMetricsStorage α C)).maxSize = (newMetricsStorage α C).maxSize
      ∧ (execOps ops (newMetricsStorage α C)).getHistory.length
        = (execOps ops (newMetricsStorage α C)).size := by
  have hinit : (newMetricsStorage α C).metrics.length ≤ (newMetricsStorage α C).maxSize := by
    unfold newMetricsStorage
    split <;> simp
  have h := execOps_inv ops (newMetricsStorage α C) hinit
  exact ⟨h.1, h.2, rfl⟩

/-- C7: `GetLatest` on an empty ring is `none`; after any `Add` it is
the snapshot just added; `Clear` zeroes the size, empties `GetLatest` and
keeps the capacity. -/
theorem getLatest_clear_spec (α : Type) (C : Int) (r : MetricsStorage α) (m : α)
    (hr : 1 ≤ r.maxSize) :
    (newMetricsStorage α C).getLatest = none
      ∧ (r.add m).getLatest = some m
      ∧ r.clear.size = 0
      ∧ r.clear.getLatest = none
      ∧ r.clear.maxSize = r.maxSize := by
  refine ⟨?_, ?_, rfl, rfl, rfl⟩
  · unfold newMetricsStorage MetricsStorage.getLatest
    split <;> rfl
  · have hmet := MetricsStorage.add_metrics r m
    have hk : r.metrics.length + 1 - r.maxSize ≤ r.metrics.length := by omega
    rw [List.drop_append_of_le_length hk] at hmet
    unfold MetricsStorage.getLatest
    rw [hmet]
    have hlast : (r.metrics.drop (r.metrics.length + 1 - r.maxSize) ++ [m]).getLast? = some m :=
      List.getLast?_concat _
    have hne : (r.metrics.drop (r.metrics.length + 1 - r.maxSize) ++ [m]).length ≠ 0 := by
      simp
    simp [hne, hlast]

/-- Witness for C7 at a concrete ring of capacity 2 holding one entry. -/
theorem getLatest_clear_spec_witness :
    (newMetricsStorage Nat 5).getLatest = none
      ∧ ((⟨[7], 2⟩ : MetricsStorage Nat).add 9).getLatest = some 9
      ∧ (⟨[7], 2⟩ : MetricsStorage Nat).clear.size = 0
      ∧ (⟨[7], 2⟩ : MetricsStorage Nat).clear.getLatest = none
      ∧ (⟨[7], 2⟩ : MetricsStorage Nat).clear.maxSize = 2 := by
  exact getLatest_clear_spec Nat 5 ⟨[7], 2⟩ 9 (by decide)

/-- C8: The constructor normalizes a non-positive requested capacity to
the default 60 and keeps any positive requested capacity exactly. -/
theorem newMetricsStorage_capacity_spec (α : Type) (v : Int) :
    (v ≤ 0 → (newMetricsStorage α v).maxSize = 60)
      ∧ (1 ≤ v → ((newMetricsStorage α v).maxSize : Int) = v) := by
  constructor
  · intro hv
    unfold newMetricsStorage
    simp [hv]
  · intro hv
    unfold newMetricsStorage
    have hv0 : ¬ v ≤ 0 := by omega
    simp [hv0]
    omega

/-- Witness for C8 at `v = -5` and `v = 7`. -/
theorem newMetricsStorage_capacity_spec_witness :
    (newMetricsStorage Nat (-5)).maxSize = 60
      ∧ ((newMetricsStorage Nat 7).maxSize : Int) = 7 :=
  ⟨(newMetricsStorage_capacity_spec Nat (-5)).1 (by decide),
   (newMetricsStorage_capacity_spec Nat 7).2 (by decide)⟩

/-! ## The broadcast hub: `Server.run` in main.go

`run` is a single goroutine selecting on the `register`, `unregister` and
`broadcast` channels, so the three handlers below are serialized; each is
modelled as a step function on an explicit hub state.  A websocket
connection is an opaque handle (`Conn`); the outcome of each `WriteJSON`
call on a connection is supplied by an oracle indexed by the connection and
by how many writes that connection has seen so far (the hub code only
branches on whether the returned error is nil).  The hub never inspects the
broadcast payloads, so the message type is a parameter. -/

abbrev Conn := Nat

/-- Oracle reading `ok c n` tells whether the `n`-th `WriteJSON` call on connection `c`
returns a nil error. -/
abbrev SendOracle := Conn → Nat → Bool

/-- State owned by the `run` goroutine: the `s.clients` map (keys, all
mapped to `true`), plus observation logs — the per-connection count of
`WriteJSON` calls issued, the successful deliveries in order, and the
`Close` calls in order. -/
structure HubState (μ : Type) where
  clients : List Conn
  writeCount : Conn → Nat
  sent : List (Conn × μ)
  closedConns : List Conn

/-- One `client.WriteJSON(m)` call: bumps the write counter of the connection,
logs the delivery if the oracle reports success, and returns whether the
error was nil. -/
def writeJSON {μ : Type} (ok : SendOracle) (st : HubState μ) (c : Conn) (m : μ) :
    HubState μ × Bool :=
  let n := st.writeCount c
  let st2 : HubState μ :=
    { st with writeCount := fun d => if d = c then n + 1 else st.writeCount d }
  if ok c n then ({ st2 with sent := st2.sent ++ [(c, m)] }, true)
  else (st2, false)

/-- The history replay loop inside the `register` case: write each stored
snapshot in order; on the first write error, `break`. -/
def replayHistory {μ : Type} (ok : SendOracle) (st : HubState μ) (c : Conn) :
    List μ → HubState μ
  | [] => st
  | m :: rest =>
      let r := writeJSON ok st c m
      if r.2 then replayHistory ok r.1 c rest else r.1

/-- The `register` case of `run`: `s.clients[client] = true` first, then
replay `s.storage.GetHistory()` to the new client. -/
def registerStep {μ : Type} (ok : SendOracle) (st : HubState μ) (c : Conn)
    (storage : MetricsStorage μ) : HubState μ :=
  let st2 : HubState μ :=
    { st with clients := if c ∈ st.clients then st.clients else st.clients ++ [c] }
  replayHistory ok st2 c storage.getHistory

/-- The `unregister` case of `run`: remove and close the connection if it
is present, otherwise do nothing. -/
def unregisterStep {μ : Type} (st : HubState μ) (c : Conn) : HubState μ :=
  if c ∈ st.clients then
    { st with clients := st.clients.erase c, closedConns := st.closedConns ++ [c] }
  else st

/-- The fan-out loop of the `broadcast` case: write the snapshot to each
client of the iteration snapshot in turn; a write error closes and deletes
that client and the loop continues with the others. -/
def deliverLoop {μ : Type} (ok : SendOracle) (m : μ) : HubState μ → List Conn → HubState μ
  | st, [] => st
  | st, c :: rest =>
      let r := writeJSON ok st c m
      let st2 : HubState μ :=
        if r.2 then r.1
        else { r.1 with clients := r.1.clients.erase c,
                        closedConns := r.1.closedConns ++ [c] }
      deliverLoop ok m st2 rest

/-- The `broadcast` case of `run`: iterate over the current client set.
(Go map iteration order is unspecified; the model fixes the list order of
`clients`, and the properties proved below are stated relative to it.) -/
def broadcastStep {μ : Type} (ok : SendOracle) (st : HubState μ) (m : μ) : HubState μ :=
  deliverLoop ok m st st.clients

/-- The messages a replay starting at write count `n` actually delivers:
the longest prefix of the history along which the oracle keeps reporting
success. -/
def replayLog {μ : Type} (ok : SendOracle) (c : Conn) (n : Nat) : List μ → List μ
  | [] => []
  | m :: rest => if ok c n then m :: replayLog ok c (n + 1) rest else []

/-- Replay only writes: it never changes the client set or the close log,
and it appends exactly the successful prefix of the history to the
delivery log. -/
lemma replayHistory_spec {μ : Type} (ok : SendOracle) (c : Conn) (H : List μ)
    (st : HubState μ) :
    (replayHistory ok st c H).clients = st.clients
      ∧ (replayHistory ok st c H).closedConns = st.closedConns
      ∧ (replayHistory ok st c H).sent
        = st.sent ++ (replayLog ok c (st.writeCount c) H).map (fun m => (c, m)) := by
  induction H generalizing st with
  | nil => simp [replayHistory, replayLog]
  | cons m rest ih =>
      by_cases hok : ok c (st.writeCount c)
      · have hres : (writeJSON ok st c m).2 = true := by
          simp [writeJSON, hok]
        have hst : (writeJSON ok st c m).1
            = { st with writeCount := fun d => if d = c then st.writeCount c + 1
                          else st.writeCount d,
                        sent := st.sent ++ [(c, m)] } := by
          simp [writeJSON, hok]
        have ih2 := ih ((writeJSON ok st c m).1)
        rw [replayHistory]
        simp only [hres, if_pos]
        rw [hst] at ih2 ⊢
        refine ⟨ih2.1, ih2.2.1, ?_⟩
        rw [ih2.2.2]
        simp [replayLog, hok]
      · have hres : (writeJSON ok st c m).2 = false := by
          simp [writeJSON, hok]
        have hst : (writeJSON ok st c m).1
            = { st with writeCount := fun d => if d = c then st.writeCount c + 1
                          else st.writeCount d } := by
          simp [writeJSON, hok]
        rw [replayHistory]
        simp only [hres, if_neg, Bool.false_eq_true, not_false_iff]
        rw [hst]
        simp [replayLog, hok]

/-- C1 counterexample: A fresh hub registers connection `0` against a
ring holding one snapshot, over an oracle that fails the very
first write and succeeds afterwards.  The replay delivers nothing (it fails
partway), yet the connection ends up in the live set, and the next
broadcast delivers to it — refuting the claim that a connection whose
replay fails is never added to the live set and never receives a later
publish. -/
def cexOracle : SendOracle := fun _ n => n != 0

/-- Hub state after the failing registration of connection `0`. -/
def cexHubAfterRegister : HubState Nat :=
  registerStep cexOracle ⟨[], fun _ => 0, [], []⟩ 0 (⟨[10], 60⟩ : MetricsStorage Nat)

/-- C1 is false of the code: the replay failed partway (nothing was
delivered although the history has one entry), yet connection `0` is in
the live set and the following `Publish` delivers to it. -/
theorem register_replay_failure_cex :
    cexHubAfterRegister.sent = []
      ∧ 0 ∈ cexHubAfterRegister.clients
      ∧ (0, 20) ∈ (broadcastStep cexOracle cexHubAfterRegister 20).sent := by
  decide

/-- C1 amended: `run` adds the registering connection to the live set
before replaying, and a replay failure only stops the replay: the
connection stays registered (and is not closed), having received exactly
the successful prefix of the history. -/
theorem register_adds_client_despite_replay_failure (μ : Type) (ok : SendOracle)
    (st : HubState μ) (c : Conn) (storage : MetricsStorage μ) :
    c ∈ (registerStep ok st c storage).clients
      ∧ (registerStep ok st c storage).clients
        = (if c ∈ st.clients then st.clients else st.clients ++ [c])
      ∧ (registerStep ok st c storage).sent
        = st.sent ++ (replayLog ok c (st.writeCount c) storage.getHistory).map (fun m => (c, m))
      ∧ (registerStep ok st c storage).closedConns = st.closedConns := by
  have h := replayHistory_spec ok c storage.getHistory
    { st with clients := if c ∈ st.clients then st.clients else st.clients ++ [c] }
  unfold registerStep
  refine ⟨?_, h.1, h.2.2, h.2.1⟩
  rw [h.1]
  by_cases hc : c ∈ st.clients <;> simp [hc]

/-- Witness for C1-as-amended at the concrete failing registration: the
connection is kept, nothing is replayed past the failure, nothing closed. -/
theorem register_adds_client_despite_replay_failure_witness :
    0 ∈ cexHubAfterRegister.clients
      ∧ cexHubAfterRegister.clients = [0]
      ∧ cexHubAfterRegister.sent = []
      ∧ cexHubAfterRegister.closedConns = [] := by
  have h := register_adds_client_despite_replay_failure Nat cexOracle
    ⟨[], fun _ => 0, [], []⟩ 0 (⟨[10], 60⟩ : MetricsStorage Nat)
  exact ⟨h.1, by rw [show cexHubAfterRegister
      = registerStep cexOracle ⟨[], fun _ => 0, [], []⟩ 0 (⟨[10], 60⟩ : MetricsStorage Nat)
      from rfl, h.2.1]; decide,
    by rw [show cexHubAfterRegister
      = registerStep cexOracle ⟨[], fun _ => 0, [], []⟩ 0 (⟨[10], 60⟩ : MetricsStorage Nat)
      from rfl, h.2.2.1]; decide,
    by rw [show cexHubAfterRegister
      = registerStep cexOracle ⟨[], fun _ => 0, [], []⟩ 0 (⟨[10], 60⟩ : MetricsStorage Nat)
      from rfl, h.2.2.2]⟩

/-- Full characterization of the fan-out loop, by induction over the
iteration snapshot `L`: `P` is the already-visited part of the client set.
Every connection of `L` gets exactly one write; survivors are the ones
whose write succeeded; failed ones are closed, in iteration order. -/
lemma deliverLoop_spec {μ : Type} (ok : SendOracle) (m : μ) (L : List Conn) :
    ∀ (P : List Conn) (st : HubState μ),
      st.clients = P ++ L → L.Nodup → (∀ c ∈ L, c ∉ P) →
      (deliverLoop ok m st L).clients
          = P ++ L.filter (fun c => ok c (st.writeCount c))
        ∧ (deliverLoop ok m st L).sent
          = st.sent ++ (L.filter (fun c => ok c (st.writeCount c))).map (fun c => (c, m))
        ∧ (deliverLoop ok m st L).closedConns
          = st.closedConns ++ L.filter (fun c => !(ok c (st.writeCount c))) := by
  induction L with
  | nil => intro P st hcl _ _; simp [deliverLoop, hcl]
  | cons c rest ih =>
      intro P st hcl hnd hdisj
      have hcrest : c ∉ rest := (List.nodup_cons.mp hnd).1
      have hndrest : rest.Nodup := (List.nodup_cons.mp hnd).2
      have hcP : c ∉ P := hdisj c (List.mem_cons_self c rest)
      by_cases hok : ok c (st.writeCount c)
      · have hres : (writeJSON ok st c m).2 = true := by simp [writeJSON, hok]
        have hst : (writeJSON ok st c m).1
            = { st with writeCount := fun d => if d = c then st.writeCount c + 1
                          else st.writeCount d,
                        sent := st.sent ++ [(c, m)] } := by simp [writeJSON, hok]
        rw [deliverLoop]
        simp only [hres, if_pos]
        have h2 := ih (P ++ [c]) ((writeJSON ok st c m).1)
          (by rw [hst]; simpa using hcl)
          hndrest
          (by intro d hd
              simp only [List.mem_append, List.mem_singleton]
              push_neg
              exact ⟨hdisj d (List.mem_cons_of_mem c hd),
                fun hdc => hcrest (hdc ▸ hd)⟩)
        have hwc : ∀ d ∈ rest,
            (ok d ((writeJSON ok st c m).1.writeCount d)) = (ok d (st.writeCount d)) := by
          intro d hd
          rw [hst]
          have hne : d ≠ c := fun hdc => hcrest (hdc ▸ hd)
          simp [hne]
        have hfilter : rest.filter (fun d => ok d ((writeJSON ok st c m).1.writeCount d))
            = rest.filter (fun d => ok d (st.writeCount d)) :=
          List.filter_congr hwc
        have hfilterneg :
            rest.filter (fun d => !(ok d ((writeJSON ok st c m).1.writeCount d)))
            = rest.filter (fun d => !(ok d (st.writeCount d))) :=
          List.filter_congr (by intro d hd; rw [hwc d hd])
        refine ⟨?_, ?_, ?_⟩
        · rw [h2.1, hfilter]
          simp [hok, List.filter_cons]
        · rw [h2.2.1, hfilter, hst]
          simp [hok, List.filter_cons]
        · rw [h2.2.2, hfilterneg, hst]
          simp [hok, List.filter_cons]
      · have hres : (writeJSON ok st c m).2 = false := by simp [writeJSON, hok]
        have hst : (writeJSON ok st c m).1
            = { st with writeCount := fun d => if d = c then st.writeCount c + 1
                          else st.writeCount d } := by simp [writeJSON, hok]
        rw [deliverLoop]
        simp only [hres, Bool.false_eq_true, if_neg, not_false_iff]
        have herase : ((writeJSON ok st c m).1.clients).erase c = P ++ rest := by
          rw [hst]
          simp only [hcl]
          rw [List.erase_append_right _ hcP]
          congr 1
          exact List.erase_cons_head c rest
        have h2 := ih P
          { (writeJSON ok st c m).1 with
              clients := ((writeJSON ok st c m).1.clients).erase c,
              closedConns := (writeJSON ok st c m).1.closedConns ++ [c] }
          (by simpa using herase)
          hndrest
          (fun d hd => hdisj d (List.mem_cons_of_mem c hd))
        have hwc : ∀ d ∈ rest,
            (ok d ((writeJSON ok st c m).1.writeCount d)) = (ok d (st.writeCount d)) := by
          intro d hd
          rw [hst]
          have hne : d ≠ c := fun hdc => hcrest (hdc ▸ hd)
          simp [hne]
        have hfilter : rest.filter (fun d => ok d ((writeJSON ok st c m).1.writeCount d))
            = rest.filter (fun d => ok d (st.writeCount d)) :=
          List.filter_congr hwc
        have hfilterneg :
            rest.filter (fun d => !(ok d ((writeJSON ok st c m).1.writeCount d)))
            = rest.filter (fun d => !(ok d (st.writeCount d))) :=
          List.filter_congr (by intro d hd; rw [hwc d hd])
        refine ⟨?_, ?_, ?_⟩
        · rw [h2.1, hfilter]
          simp [hok, List.filter_cons]
        · rw [h2.2.1, hfilter, hst]
          simp [hok, List.filter_cons]
        · rw [h2.2.2, hfilterneg, hst]
          simp [hok, List.filter_cons]

/-- C4: One `Publish` over any client set (distinct handles, as map
keys are): the clients whose write succeeds each receive exactly one copy
of the snapshot and stay registered; every client whose write fails is
removed from the set and closed as part of handling that failure; a
failure never blocks the remaining deliveries. -/
theorem broadcast_isolates_failures (μ : Type) (ok : SendOracle) (st : HubState μ)
    (m : μ) (hnd : st.clients.Nodup) :
    (broadcastStep ok st m).clients
        = st.clients.filter (fun c => ok c (st.writeCount c))
      ∧ (broadcastStep ok st m).sent
        = st.sent ++ (st.clients.filter (fun c => ok c (st.writeCount c))).map (fun c => (c, m))
      ∧ (broadcastStep ok st m).closedConns
        = st.closedConns ++ st.clients.filter (fun c => !(ok c (st.writeCount c))) := by
  have h := deliverLoop_spec ok m st.clients [] st (by simp) hnd (by simp)
  exact ⟨by simpa using h.1, h.2.1, h.2.2⟩

/-- Witness for C4: end-to-end scenario B — subscribers `1` (send always
errors) and `2` (send always succeeds); after one publish of snapshot
`42`, subscriber `1` is unregistered and closed and subscriber `2` has
received exactly that one message. -/
theorem broadcast_isolates_failures_witness :
    (broadcastStep (fun c _ => c == 2) (⟨[1, 2], fun _ => 0, [], []⟩ : HubState Nat) 42).clients
        = [2]
      ∧ (broadcastStep (fun c _ => c == 2) (⟨[1, 2], fun _ => 0, [], []⟩ : HubState Nat) 42).sent
        = [(2, 42)]
      ∧ (broadcastStep (fun c _ => c == 2)
          (⟨[1, 2], fun _ => 0, [], []⟩ : HubState Nat) 42).closedConns = [1] := by
  have h := broadcast_isolates_failures Nat (fun c _ => c == 2)
    (⟨[1, 2], fun _ => 0, [], []⟩ : HubState Nat) 42 (by decide)
  refine ⟨?_, ?_, ?_⟩
  · rw [h.1]; decide
  · rw [h.2.1]; decide
  · rw [h.2.2]; decide

/-! ## The collection loop: `Server.startMetricsCollection` in main.go

Each iteration of the `select` in the loop either observes cancellation
(`ctx.Done()`, upon which the function returns) or a timer tick, on which
`Collect` runs: a non-nil error logs and `continue`s, a nil error first
calls `storage.Add` and then hands the snapshot to the broadcast channel.
The resolved `select` outcomes form the event trace the model consumes. -/

/-- One observed `select` outcome: cancellation, or a tick whose `Collect`
call produced a snapshot (`some`) or an error (`none`). -/
inductive LoopEvent (μ : Type) where
  | cancelEv : LoopEvent μ
  | tickEv : Option μ → LoopEvent μ

/-- State the loop mutates: the ring, and the log of snapshots handed to
the broadcast channel, in order. -/
structure LoopState (μ : Type) where
  ring : MetricsStorage μ
  published : List μ

/-- The loop body of `startMetricsCollection` over a trace of `select`
outcomes.  `cancelEv` returns (the rest of the trace is never looked at);
an errored tick `continue`s; a successful tick does `s.storage.Add` and
then `s.broadcast <- metrics`. -/
def runLoop {μ : Type} : LoopState μ → List (LoopEvent μ) → LoopState μ
  | st, [] => st
  | st, LoopEvent.cancelEv :: _ => st
  | st, LoopEvent.tickEv none :: evs => runLoop st evs
  | st, LoopEvent.tickEv (some m) :: evs =>
      runLoop { ring := st.ring.add m, published := st.published ++ [m] } evs

/-- The snapshots of the successful ticks preceding the first
cancellation. -/
def effTicks {μ : Type} : List (LoopEvent μ) → List μ
  | [] => []
  | LoopEvent.cancelEv :: _ => []
  | LoopEvent.tickEv none :: evs => effTicks evs
  | LoopEvent.tickEv (some m) :: evs => m :: effTicks evs

/-- C5: Over any trace: the ring receives exactly one `Add` per
successful pre-cancellation tick, in order; the broadcast channel receives
exactly the same snapshots in the same order (a failed tick contributes to
neither and does not end the loop); and everything after a cancellation is
ignored — the run with events following the first `cancelEv` equals the run
that stops there. -/
theorem collection_loop_spec (μ : Type) (st : LoopState μ)
    (evs evs1 evs2 : List (LoopEvent μ)) :
    (runLoop st evs).ring = (effTicks evs).foldl MetricsStorage.add st.ring
      ∧ (runLoop st evs).published = st.published ++ effTicks evs
      ∧ runLoop st (evs1 ++ LoopEvent.cancelEv :: evs2)
        = runLoop st (evs1 ++ [LoopEvent.cancelEv]) := by
  refine ⟨?_, ?_, ?_⟩
  · induction evs generalizing st with
    | nil => rfl
    | cons ev evs ih =>
        cases ev with
        | cancelEv => rfl
        | tickEv o =>
            cases o with
            | none => exact ih st
            | some m => exact ih ⟨st.ring.add m, st.published ++ [m]⟩
  · induction evs generalizing st with
    | nil => simp [runLoop, effTicks]
    | cons ev evs ih =>
        cases ev with
        | cancelEv => simp [runLoop, effTicks]
        | tickEv o =>
            cases o with
            | none => simpa [runLoop, effTicks] using ih st
            | some m =>
                have := ih ⟨st.ring.add m, st.published ++ [m]⟩
                simpa [runLoop, effTicks] using this
  · induction evs1 generalizing st with
    | nil => rfl
    | cons ev evs1 ih =>
        cases ev with
        | cancelEv => rfl
        | tickEv o =>
            cases o with
            | none => exact ih st
            | some m => exact ih ⟨st.ring.add m, st.published ++ [m]⟩

/-! ## The snapshot source: `Collector.Collect` in
internal/collector/collector.go

Each sub-collector call goes to the platform library; its outcome is part
of the environment.  `Collect` assembles the snapshot from the outcomes:
an `if err == nil` guard per field, leaving the zero value on failure, and
always returns a nil error. -/

/-- Outcomes of the six sub-collector calls made by one `Collect`. -/
structure CollectorEnv where
  cpuRes : Except Unit CPUMetrics
  memRes : Except Unit MemoryMetrics
  diskRes : Except Unit (List DiskMetrics)
  netRes : Except Unit (List NetworkMetrics)
  sysRes : Except Unit SystemInfo
  tempRes : Except Unit (List TempMetrics)

/-- Embeds `(*Collector).Collect`: start from the zero snapshot stamped with the
current time, fill each field whose sub-collector succeeded (temperature
additionally requires a non-empty reading list), and return a nil error. -/
def collect (env : CollectorEnv) (now : GoTime) : SystemMetrics × Option Unit :=
  let base : SystemMetrics :=
    { timestamp := now, cpu := CPUMetrics.zero, memory := MemoryMetrics.zero,
      disk := [], network := [], system := SystemInfo.zero, temperature := [] }
  let m1 := match env.cpuRes with
    | Except.ok v => { base with cpu := v }
    | Except.error _ => base
  let m2 := match env.memRes with
    | Except.ok v => { m1 with memory := v }
    | Except.error _ => m1
  let m3 := match env.diskRes with
    | Except.ok v => { m2 with disk := v }
    | Except.error _ => m2
  let m4 := match env.netRes with
    | Except.ok v => { m3 with network := v }
    | Except.error _ => m3
  let m5 := match env.sysRes with
    | Except.ok v => { m4 with system := v }
    | Except.error _ => m4
  let m6 := match env.tempRes with
    | Except.ok v => if v.length > 0 then { m5 with temperature := v } else m5
    | Except.error _ => m5
  (m6, none)

/-- Outcome of `Server.handleAPIMetrics` as seen by the client. -/
inductive ApiResult (μ : Type) where
  | okJson : μ → ApiResult μ
  | internalServerError : ApiResult μ

/-- Embeds `Server.handleAPIMetrics`: HTTP 500 when `Collect` returns a non-nil
error, otherwise the snapshot encoded as JSON with status 200. -/
def handleAPIMetrics (env : CollectorEnv) (now : GoTime) : ApiResult SystemMetrics :=
  match collect env now with
  | (_, some _) => ApiResult.internalServerError
  | (metrics, none) => ApiResult.okJson metrics

/-- C9: `Collect` returns a nil error on every invocation — sub-collector
failures only leave the corresponding field at its zero value — so the
on-demand endpoint never answers 500 and the skip-tick branch of the collection
loop never fires. -/
theorem collect_never_errors (env : CollectorEnv) (now : GoTime) :
    (collect env now).2 = none
      ∧ handleAPIMetrics env now = ApiResult.okJson (collect env now).1
      ∧ (collect env now).1.timestamp = now
      ∧ (env.cpuRes = Except.error () → (collect env now).1.cpu = CPUMetrics.zero)
      ∧ (env.memRes = Except.error () → (collect env now).1.memory = MemoryMetrics.zero)
      ∧ (env.diskRes = Except.error () → (collect env now).1.disk = [])
      ∧ (env.netRes = Except.error () → (collect env now).1.network = [])
      ∧ (env.sysRes = Except.error () → (collect env now).1.system = SystemInfo.zero)
      ∧ (env.tempRes = Except.error () → (collect env now).1.temperature = []) := by
  obtain ⟨c, m, d, n, s, t⟩ := env
  cases c <;> cases m <;> cases d <;> cases n <;> cases s <;> cases t <;>
    simp [collect, handleAPIMetrics] <;> split <;> simp

/-- Witness for C9 at the all-failing environment: the error is still nil,
the endpoint answers 200, and every field is its zero value. -/
theorem collect_never_errors_witness :
    (collect ⟨Except.error (), Except.error (), Except.error (), Except.error (),
        Except.error (), Except.error ()⟩ 5).2 = none
      ∧ (collect ⟨Except.error (), Except.error (), Except.error (), Except.error (),
          Except.error (), Except.error ()⟩ 5).1.cpu = CPUMetrics.zero
      ∧ (collect ⟨Except.error (), Except.error (), Except.error (), Except.error (),
          Except.error (), Except.error ()⟩ 5).1.disk = [] := by
  have h := collect_never_errors ⟨Except.error (), Except.error (), Except.error (),
    Except.error (), Except.error (), Except.error ()⟩ 5
  exact ⟨h.1, h.2.2.2.1 rfl, h.2.2.2.2.2.1 rfl⟩

/-! ## Network sub-collection: `Collector.collectNetwork` -/

/-- Mirror of the per-interface `net.IOCountersStat` of the platform library as consumed by
`collectNetwork` (the FIFO counters exist on the wire type but are not
copied into the snapshot). -/
structure NetIOCounters where
  name : String
  bytesSent : Nat
  bytesRecv : Nat
  packetsSent : Nat
  packetsRecv : Nat
  errin : Nat
  errout : Nat
  dropin : Nat
  dropout : Nat
  fifoin : Nat
  fifoout : Nat
  deriving DecidableEq

/-- The per-interface copy performed inside the loop of `collectNetwork`. -/
def toNetworkMetrics (nic : NetIOCounters) : NetworkMetrics :=
  { name := nic.name, bytesSent := nic.bytesSent, bytesRecv := nic.bytesRecv,
    packetsSent := nic.packetsSent, packetsRecv := nic.packetsRecv,
    errin := nic.errin, errout := nic.errout,
    dropin := nic.dropin, dropout := nic.dropout }

/-- The skip condition of the loop: loopback names, or an interface with both
cumulative byte counters at zero. -/
def isSkippedInterface (nic : NetIOCounters) : Bool :=
  nic.name == "lo" || nic.name == "lo0" || (nic.bytesSent == 0 && nic.bytesRecv == 0)

/-- Embeds `(*Collector).collectNetwork` on the success path of
`net.IOCounters(true)`: iterate the reported interfaces, skip the filtered
ones, append the copied metrics of the rest. -/
def collectNetwork (counters : List NetIOCounters) : List NetworkMetrics :=
  counters.foldl
    (fun acc nic =>
      if isSkippedInterface nic then acc else acc ++ [toNetworkMetrics nic]) []

/-- Accumulator form of the skip-loop as a filter-then-map. -/
lemma collectNetwork_foldl {μ : Type} (p : NetIOCounters → Bool)
    (f : NetIOCounters → μ) (l : List NetIOCounters) :
    ∀ acc : List μ,
      l.foldl (fun a x => if p x then a else a ++ [f x]) acc
        = acc ++ (l.filter (fun x => !(p x))).map f := by
  induction l with
  | nil => intro acc; simp
  | cons x l ih =>
      intro acc
      simp only [List.foldl_cons]
      by_cases hx : p x
      · rw [if_pos hx, ih acc]
        simp [List.filter_cons, hx]
      · rw [if_neg hx, ih (acc ++ [f x])]
        simp [List.filter_cons, hx]

/-- C10: The network sub-collection drops exactly the interfaces named
`lo` or `lo0` and those with both cumulative byte counters zero, and every
surviving interface appears with its counters copied unchanged. -/
theorem collectNetwork_filter_spec (counters : List NetIOCounters) :
    collectNetwork counters
        = (counters.filter (fun nic => !(isSkippedInterface nic))).map toNetworkMetrics
      ∧ ∀ r ∈ collectNetwork counters,
          r.name ≠ "lo" ∧ r.name ≠ "lo0" ∧ ¬(r.bytesSent = 0 ∧ r.bytesRecv = 0)
            ∧ ∃ nic ∈ counters, ¬(isSkippedInterface nic = true)
                ∧ r = toNetworkMetrics nic := by
  have heq : collectNetwork counters
      = (counters.filter (fun nic => !(isSkippedInterface nic))).map toNetworkMetrics := by
    unfold collectNetwork
    simpa using collectNetwork_foldl isSkippedInterface toNetworkMetrics counters []
  refine ⟨heq, ?_⟩
  intro r hr
  rw [heq] at hr
  obtain ⟨nic, hnicmem, hnic⟩ := List.mem_map.mp hr
  have hkeep : ¬(isSkippedInterface nic = true) := by
    have := List.of_mem_filter hnicmem
    simp at this
    simp [this]
  have hmem : nic ∈ counters := List.mem_of_mem_filter hnicmem
  have hprops : nic.name ≠ "lo" ∧ nic.name ≠ "lo0"
      ∧ ¬(nic.bytesSent = 0 ∧ nic.bytesRecv = 0) := by
    have hk2 := hkeep
    unfold isSkippedInterface at hk2
    simp only [Bool.or_eq_true, Bool.and_eq_true, beq_iff_eq] at hk2
    push_neg at hk2
    exact ⟨hk2.1.1, hk2.1.2, fun hz => hk2.2 hz.1 hz.2⟩
  subst hnic
  exact ⟨hprops.1, hprops.2.1, hprops.2.2, nic, hmem, hkeep, rfl⟩

/-- Witness for C10 on a concrete interface list: the loopback and the
idle interface are dropped, the active one is copied unchanged. -/
theorem collectNetwork_filter_spec_witness :
    collectNetwork
        [⟨"lo", 9, 9, 1, 1, 0, 0, 0, 0, 0, 0⟩,
         ⟨"eth1", 0, 0, 0, 0, 0, 0, 0, 0, 0, 0⟩,
         ⟨"eth0", 5, 6, 7, 8, 1, 2, 3, 4, 11, 12⟩]
      = [⟨"eth0", 5, 6, 7, 8, 1, 2, 3, 4⟩]
      ∧ (⟨"eth0", 5, 6, 7, 8, 1, 2, 3, 4⟩ : NetworkMetrics).name ≠ "lo" := by
  have h := collectNetwork_filter_spec
    [⟨"lo", 9, 9, 1, 1, 0, 0, 0, 0, 0, 0⟩,
     ⟨"eth1", 0, 0, 0, 0, 0, 0, 0, 0, 0, 0⟩,
     ⟨"eth0", 5, 6, 7, 8, 1, 2, 3, 4, 11, 12⟩]
  constructor
  · rw [h.1]; decide
  · have hmem : (⟨"eth0", 5, 6, 7, 8, 1, 2, 3, 4⟩ : NetworkMetrics)
        ∈ collectNetwork
          [⟨"lo", 9, 9, 1, 1, 0, 0, 0, 0, 0, 0⟩,
           ⟨"eth1", 0, 0, 0, 0, 0, 0, 0, 0, 0, 0⟩,
           ⟨"eth0", 5, 6, 7, 8, 1, 2, 3, 4, 11, 12⟩] := by
      rw [h.1]; decide
    exact (h.2 _ hmem).1

/-! ## Copy semantics of the reads: the aliasing view

`GetHistory` does `make` + `copy`, and `GetLatest` returns the address of a
local struct copy: in both cases the `SystemMetrics` struct values are
copied, and a Go struct copy duplicates the slice *headers* of the nested
`Disk`, `Network`, `CPU.UsagePercent`, `CPU.LoadAvg` and `Temperature`
fields while the backing arrays stay shared.  To express what an
in-place consumer mutation of a returned value can reach, backing arrays live in an
explicit heap and a snapshot struct holds references into it.  The nested
slices of this program are only ever created whole and indexed, never
re-sliced, so a reference is just the identity of its backing array. -/

/-- A nested Go slice header: the identity of its backing array. -/
structure SliceRef where
  arr : Nat
  deriving DecidableEq

/-- Model of `models.CPUMetrics` at the aliasing view: the two `[]float64` fields
are references. -/
structure CPUMetricsRef where
  usagePercent : SliceRef
  totalPercent : Float64
  cores : Int
  loadAvg : SliceRef
  deriving DecidableEq

/-- Model of `models.SystemMetrics` at the aliasing view: scalar and struct fields
are held by value (a struct copy duplicates them), nested slices are
references into the heap. -/
structure SystemMetricsRef where
  timestamp : GoTime
  cpu : CPUMetricsRef
  memory : MemoryMetrics
  disk : SliceRef
  network : SliceRef
  system : SystemInfo
  temperature : SliceRef
  deriving DecidableEq

/-- The backing arrays, one address space per element type. -/
structure Heap where
  floatArr : Nat → List Float64
  diskArr : Nat → List DiskMetrics
  netArr : Nat → List NetworkMetrics
  tempArr : Nat → List TempMetrics

/-- What a consumer observes when reading a returned snapshot: every
nested slice dereferenced through the heap. -/
def resolve (h : Heap) (s : SystemMetricsRef) : SystemMetrics :=
  { timestamp := s.timestamp,
    cpu := { usagePercent := h.floatArr s.cpu.usagePercent.arr,
             totalPercent := s.cpu.totalPercent,
             cores := s.cpu.cores,
             loadAvg := h.floatArr s.cpu.loadAvg.arr },
    memory := s.memory,
    disk := h.diskArr s.disk.arr,
    network := h.netArr s.network.arr,
    system := s.system,
    temperature := h.tempArr s.temperature.arr }

/-- A consumer statement `returned.Disk[j] = v`: an in-place write through
a nested slice reference. -/
def writeDisk (h : Heap) (s : SliceRef) (j : Nat) (v : DiskMetrics) : Heap :=
  { h with diskArr := fun a => if a = s.arr then (h.diskArr a).set j v else h.diskArr a }

/-- The fully resolved content a consumer gets from `GetHistory` under a
given heap. -/
def readHistory (h : Heap) (r : MetricsStorage SystemMetricsRef) : List SystemMetrics :=
  r.getHistory.map (resolve h)

/-- Writing through the own disk reference of a snapshot is visible when that
snapshot is resolved again: the disk list shows the `set`, everything else
is untouched. -/
lemma resolve_writeDisk_self (h : Heap) (s : SystemMetricsRef) (j : Nat) (v : DiskMetrics) :
    resolve (writeDisk h s.disk j v) s
      = { resolve h s with disk := ((resolve h s).disk).set j v } := by
  unfold resolve writeDisk
  simp

/-- A stored disk entry as the ring holds it. -/
def cexDisk0 : DiskMetrics := ⟨"sda1", "/", "ext4", 100, 40, 60, 40⟩

/-- The value a consumer writes over the disk entry of the returned copy. -/
def cexDisk1 : DiskMetrics := ⟨"overwritten", "/", "ext4", 0, 0, 0, 0⟩

/-- A heap holding one one-entry disk array (array 0) and empty arrays
elsewhere. -/
def cexHeap : Heap :=
  { floatArr := fun _ => [],
    diskArr := fun a => if a = 0 then [cexDisk0] else [],
    netArr := fun _ => [],
    tempArr := fun _ => [] }

/-- A stored snapshot whose `Disk` slice is backed by array 0. -/
def cexSnap : SystemMetricsRef :=
  { timestamp := 0, cpu := ⟨⟨1⟩, 0, 4, ⟨2⟩⟩, memory := MemoryMetrics.zero,
    disk := ⟨0⟩, network := ⟨3⟩, system := SystemInfo.zero, temperature := ⟨4⟩ }

/-- A ring of capacity 60 holding the one snapshot. -/
def cexRing : MetricsStorage SystemMetricsRef := ⟨[cexSnap], 60⟩

/-- C2 counterexample: Take the copy returned by `GetHistory`, assign
through `Disk[0]` of its first element — and the result of the next
`GetHistory` read has changed: the copies are not independent in their
nested slices, refuting the claim that a consumer mutation never changes a
subsequent read. -/
theorem getHistory_nested_alias_cex :
    readHistory
        (writeDisk cexHeap ((cexRing.getHistory.get ⟨0, by decide⟩).disk) 0 cexDisk1)
        cexRing
      ≠ readHistory cexHeap cexRing := by
  decide

/-- C2 amended: The reads return struct copies, so all scalar and
struct fields — and, for every snapshot, all nested slices other than the
one written — are unaffected by a consumer write; the top-level list
returned by `GetHistory` is a fresh array whose element structs equal the
stored ones.  But the nested slices are shared by reference: an in-place
write through the `Disk` slice of a returned snapshot is visible in the next
read of that snapshot, both via `GetHistory` (position `i`) and via
`GetLatest`. -/
theorem reads_top_level_copies_nested_aliased
    (r : MetricsStorage SystemMetricsRef) (h : Heap)
    (i : Fin r.getHistory.length) (j : Nat) (v : DiskMetrics) :
    (∀ x : SystemMetricsRef,
        (resolve (writeDisk h (r.getHistory.get i).disk j v) x).timestamp
            = (resolve h x).timestamp
          ∧ (resolve (writeDisk h (r.getHistory.get i).disk j v) x).cpu = (resolve h x).cpu
          ∧ (resolve (writeDisk h (r.getHistory.get i).disk j v) x).memory
            = (resolve h x).memory
          ∧ (resolve (writeDisk h (r.getHistory.get i).disk j v) x).network
            = (resolve h x).network
          ∧ (resolve (writeDisk h (r.getHistory.get i).disk j v) x).system
            = (resolve h x).system
          ∧ (resolve (writeDisk h (r.getHistory.get i).disk j v) x).temperature
            = (resolve h x).temperature)
      ∧ r.getHistory = r.metrics
      ∧ (readHistory (writeDisk h (r.getHistory.get i).disk j v) r).get
            ⟨i.val, by simp [readHistory, MetricsStorage.getHistory]⟩
          = { resolve h (r.getHistory.get i) with
                disk := ((resolve h (r.getHistory.get i)).disk).set j v }
      ∧ (∀ t : SystemMetricsRef, r.getLatest = some t →
          resolve (writeDisk h t.disk j v) t
            = { resolve h t with disk := ((resolve h t).disk).set j v }) := by
  refine ⟨?_, rfl, ?_, ?_⟩
  · intro x
    exact ⟨rfl, rfl, rfl, rfl, rfl, rfl⟩
  · show ((r.getHistory.map
        (resolve (writeDisk h (r.getHistory.get i).disk j v))).get _) = _
    rw [List.get_eq_getElem, List.getElem_map]
    rw [show r.getHistory[i.val] = r.getHistory.get i from rfl]
    exact resolve_writeDisk_self h (r.getHistory.get i) j v
  · intro t _
    exact resolve_writeDisk_self h t j v

/-- Witness for C2-as-amended at the concrete ring: `GetLatest` returns the
stored snapshot, and the in-place disk write of the consumer shows up in its
re-read. -/
theorem reads_top_level_copies_nested_aliased_witness :
    cexRing.getLatest = some cexSnap
      ∧ resolve (writeDisk cexHeap cexSnap.disk 0 cexDisk1) cexSnap
        = { resolve cexHeap cexSnap with
              disk := ((resolve cexHeap cexSnap).disk).set 0 cexDisk1 } := by
  have h := reads_top_level_copies_nested_aliased cexRing cexHeap ⟨0, by decide⟩ 0 cexDisk1
  exact ⟨by decide, h.2.2.2 cexSnap (by decide)⟩

end SystemMonitor
